import Mathlib

/-!
A shallow embedding of the penrose window-manager core (src/manager.rs and
src/draw/bar/text.rs) together with the collaborator modules it consumes.
The manager source is translated directly; the Workspace, Client, Screen,
config and X-adapter modules are not part of the source tree delivered here,
so they are modelled from the specification (each such definition carries a
doc comment starting with the words Modelled from the spec).

X side effects are made observable as a trace of requests; machine integers
(u32 arithmetic in configure_window) are Nat with explicit reduction modulo
2 to the 32nd power where the source can wrap.
-/

/-- One u32 word: arithmetic in apply_layout is done on u32 in the source. -/
def u32Mod : Nat := 4294967296

/-- Reduce a natural number into u32 range. -/
def u32wrap (n : Nat) : Nat := n % u32Mod

/-- u32 addition with wraparound, as `x as u32 + GAP_PX` behaves in release builds. -/
def u32add (a b : Nat) : Nat := u32wrap (a + b)

/-- u32 subtraction with wraparound, as `w as u32 - padding` behaves in release builds. -/
def u32sub (a b : Nat) : Nat := u32wrap (u32wrap a + u32Mod - u32wrap b)

/-- Modelled from the spec: a Region is an axis-aligned pixel rectangle (x,y,w,h)
(data_types.rs is not in the delivered source). -/
structure Region where
  x : Nat
  y : Nat
  w : Nat
  h : Nat
deriving DecidableEq

/-- Modelled from the spec: Region::values() returns the (x, y, w, h) tuple. -/
def Region.values (r : Region) : Nat × Nat × Nat × Nat := (r.x, r.y, r.w, r.h)

/-- Modelled from the spec: cycle directions for clients and layouts.  -/
inductive Direction where
  | Forward
  | Backward
deriving DecidableEq

/-- Modelled from the spec: increment / decrement commands for layout parameters. -/
inductive Change where
  | More
  | Less
deriving DecidableEq

/-- An observable request to the X server, one constructor per capability of
the X adapter that the manager uses (spec section 4.4). -/
inductive XRequest where
  | configureWindow (id : Nat) (x y w h border : Nat)
  | changeWindowAttributes (id : Nat)
  | sendClientMessage (id : Nat) (protoAtom dataAtom : String)
  | flushConn
  | mapWindow (id : Nat)
  | unmapWindow (id : Nat)
  | setBorderColor (id : Nat) (focusedColor : Bool)
  | setInputFocus (id : Nat)
  | runExternal (cmd : String)
deriving DecidableEq

/-- Modelled from the spec: the configuration surface consumed by the core
(config.rs is not in the delivered source). -/
structure Config where
  WORKSPACES : List String
  FLOATING_CLASSES : List String
  BORDER_PX : Nat
  GAP_PX : Nat
deriving DecidableEq

/-- Modelled from the spec: a Client is per-window state
(client.rs is not in the delivered source). -/
structure Client where
  id : Nat
  wm_class : String
  floating : Bool
  focused : Bool
deriving DecidableEq

/-- Modelled from the spec: Client::new(id, class, floating). -/
def Client.new (id : Nat) (wm_class : String) (floating : Bool) : Client :=
  ⟨id, wm_class, floating, false⟩

/-- Modelled from the spec: Client::focus sets the distinguishing border color
and the input focus, and flips the focus flag. -/
def Client.focus (c : Client) : Client × List XRequest :=
  ({ c with focused := true }, [XRequest.setBorderColor c.id true, XRequest.setInputFocus c.id])

/-- Modelled from the spec: Client::unfocus restores the neutral border color. -/
def Client.unfocus (c : Client) : Client × List XRequest :=
  ({ c with focused := false }, [XRequest.setBorderColor c.id false])

/-- Modelled from the spec: the layout variants supplied by the core
(layout.rs is not in the delivered source). -/
inductive Layout where
  | tiled
  | monocle
  | floating
deriving DecidableEq

/-- Modelled from the spec: tile the given client ids vertically across a region,
used by the master/stack layout for each column. -/
def tileVertically (ids : List Nat) (r : Region) : List (Nat × Region) :=
  let n := ids.length
  ids.enum.map (fun p => (p.2, Region.mk r.x (r.y + p.1 * (r.h / n)) r.w (r.h / n)))

/-- Modelled from the spec: a layout maps (ids, region, max_main, main_ratio) to
per-client regions in ring order.  The f64 main_ratio is rendered exactly in
hundredths (the spec initializes it to 0.5 and moves it in steps of 0.05, so
every reachable value is a whole number of hundredths); the spec's
floor(region.w * main_ratio) is then the Nat division by 100. -/
def layoutArrange : Layout → List Nat → Region → Nat → Nat → List (Nat × Region)
  | Layout.floating, _, _, _, _ => []
  | Layout.monocle, ids, r, _, _ => ids.map (fun id => (id, r))
  | Layout.tiled, ids, r, max_main, q =>
    if ids.length = 0 then []
    else if ids.length ≤ max_main ∨ 100 ≤ q then tileVertically ids r
    else
      let splitW := r.w * q / 100
      let left := Region.mk r.x r.y splitW r.h
      let right := Region.mk (r.x + splitW) r.y (r.w - splitW) r.h
      tileVertically (ids.take max_main) left ++ tileVertically (ids.drop max_main) right

/-- Modelled from the spec: a Workspace is a name, the ordered ring of client ids,
the focus position in the ring, the list of layouts with the active index, and
the layout parameters (workspace.rs is not in the delivered source).
The field ratio_main renders the spec's f64 main_ratio in hundredths. -/
structure Workspace where
  name : String
  clients : List Nat
  focused : Option Nat
  layouts : List Layout
  layout : Nat
  max_main : Nat
  ratio_main : Nat
deriving DecidableEq

instance : Inhabited Workspace := ⟨⟨"", [], none, [], 0, 1, 50⟩⟩

/-- Modelled from the spec: Workspace::new(name, layouts); max_main starts at 1
and main_ratio at 0.5. -/
def Workspace.new (name : String) (layouts : List Layout) : Workspace :=
  ⟨name, [], none, layouts, 0, 1, 50⟩

/-- Modelled from the spec: add_client appends the id to the ring and focuses it. -/
def Workspace.add_client (ws : Workspace) (id : Nat) : Workspace :=
  { ws with clients := ws.clients ++ [id], focused := some ws.clients.length }

/-- Modelled from the spec: remove_client removes the id; if it was focused the
focus moves to the next ring position, wrapping to the previous position when the
tail is removed; an emptied ring has no focus. -/
def Workspace.remove_client (ws : Workspace) (id : Nat) : Workspace :=
  if id ∈ ws.clients then
    let p := ws.clients.findIdx (fun x => x == id)
    let rest := ws.clients.erase id
    let focused :=
      if rest.length = 0 then none
      else
        match ws.focused with
        | none => none
        | some i =>
          if i = p then some (min p (rest.length - 1))
          else if p < i then some (i - 1)
          else some i
    { ws with clients := rest, focused := focused }
  else ws

/-- Modelled from the spec: focused_client returns the focused ring id, if any. -/
def Workspace.focused_client (ws : Workspace) : Option Nat :=
  ws.focused.bind (fun i => ws.clients[i]?)

/-- Modelled from the spec: cycle_client moves the focus with wraparound and
returns (previous, current), or nothing when the ring has fewer than two ids. -/
def Workspace.cycle_client (ws : Workspace) (d : Direction) : Workspace × Option (Nat × Nat) :=
  if ws.clients.length < 2 then (ws, none)
  else
    match ws.focused with
    | none => (ws, none)
    | some i =>
      let n := ws.clients.length
      let j := match d with
        | Direction.Forward => (i + 1) % n
        | Direction.Backward => (i + n - 1) % n
      match ws.clients[i]?, ws.clients[j]? with
      | some prev, some cur => ({ ws with focused := some j }, some (prev, cur))
      | _, _ => (ws, none)

/-- Modelled from the spec: cycle_layout rotates the active layout index. -/
def Workspace.cycle_layout (ws : Workspace) (d : Direction) : Workspace :=
  let n := ws.layouts.length
  if n = 0 then ws
  else
    match d with
    | Direction.Forward => { ws with layout := (ws.layout + 1) % n }
    | Direction.Backward => { ws with layout := (ws.layout + n - 1) % n }

/-- Modelled from the spec: update_max_main adjusts max_main, clamped at 1. -/
def Workspace.update_max_main (ws : Workspace) : Change → Workspace
  | Change.More => { ws with max_main := ws.max_main + 1 }
  | Change.Less => { ws with max_main := max 1 (ws.max_main - 1) }

/-- Modelled from the spec: the main-ratio step is 0.05 (five hundredths),
clamped inside (0.05, 0.95); source name update_main_ratio. -/
def Workspace.update_ratio_main (ws : Workspace) : Change → Workspace
  | Change.More => { ws with ratio_main := min 95 (ws.ratio_main + 5) }
  | Change.Less => { ws with ratio_main := max 5 (ws.ratio_main - 5) }

/-- Modelled from the spec: arrange delegates to the active layout with the
current parameters. -/
def Workspace.arrange (ws : Workspace) (region : Region) : List (Nat × Region) :=
  layoutArrange (ws.layouts.getD ws.layout Layout.floating) ws.clients region ws.max_main ws.ratio_main

/-- Modelled from the spec: map_clients asks the X adapter to map every ring id. -/
def Workspace.map_clients (ws : Workspace) : List XRequest :=
  ws.clients.map XRequest.mapWindow

/-- Modelled from the spec: unmap_clients asks the X adapter to unmap every ring id. -/
def Workspace.unmap_clients (ws : Workspace) : List XRequest :=
  ws.clients.map XRequest.unmapWindow

/-- Modelled from the spec: a Screen is a RandR output region plus the index of
the workspace shown on it (screen.rs is not in the delivered source). -/
structure Screen where
  region : Region
  wix : Nat
deriving DecidableEq

instance : Inhabited Screen := ⟨⟨⟨0, 0, 0, 0⟩, 0⟩⟩

/-- The WindowManager state: screens, workspaces, the global client vector and
the focused screen index (manager.rs; the X connection is rendered as the
request trace returned by each operation). -/
structure WindowManager where
  screens : List Screen
  workspaces : List Workspace
  clients : List Client
  focused_screen : Nat
deriving DecidableEq

/-- Modelled from the spec: intern_atom resolves an atom by name; atoms are
rendered by their names (helpers.rs is not in the delivered source). -/
def intern_atom (name : String) : String := name

def wmDeleteWindowName : String := "WM_DELETE_WINDOW"

def wmProtocolsName : String := "WM_PROTOCOLS"

/-- workspace_for_screen: the workspace bound to the given screen
(out-of-range indexing, a panic in the source, is rendered totally through
getD; the theorems supply the validity hypotheses the source assumes). -/
def workspace_for_screen (s : WindowManager) (screen_index : Nat) : Workspace :=
  s.workspaces.getD (s.screens.getD screen_index default).wix default

/-- workspace_for_screen_mut: rebuild the state with the workspace bound to the
given screen replaced by f of itself. -/
def modifyWorkspaceForScreen (s : WindowManager) (screen_index : Nat) (f : Workspace → Workspace) :
    WindowManager :=
  let wix := (s.screens.getD screen_index default).wix
  { s with workspaces := s.workspaces.set wix (f (s.workspaces.getD wix default)) }

/-- apply_layout (fn apply_layout(&self, screen: usize)): for every (id, region)
pair of the bound workspace's arrange over the screen region, issue one
configure_window request with the gap offsets, the border-and-gap padding
subtracted on u32, and the border width. -/
def apply_layout (cfg : Config) (s : WindowManager) (screen : Nat) : List XRequest :=
  let screen_region := (s.screens.getD screen default).region
  let ws := workspace_for_screen s screen
  (ws.arrange screen_region).map (fun p =>
    let v := p.2.values
    let padding := 2 * (cfg.BORDER_PX + cfg.GAP_PX)
    XRequest.configureWindow p.1
      (u32add v.1 cfg.GAP_PX)
      (u32add v.2.1 cfg.GAP_PX)
      (u32sub v.2.2.1 padding)
      (u32sub v.2.2.2 padding)
      cfg.BORDER_PX)

/-- remove_client (manager): drop the id from the focused screen's workspace and
retain only the other ids in the global client vector. -/
def WindowManager.remove_client (s : WindowManager) (win_id : Nat) : WindowManager :=
  let s1 := modifyWorkspaceForScreen s s.focused_screen (fun ws => ws.remove_client win_id)
  { s1 with clients := s1.clients.filter (fun c => c.id != win_id) }

/-- First component of WM_CLASS: the source splits on NUL and keeps entry zero. -/
def firstClassComponent (st : String) : String :=
  String.mk (st.toList.takeWhile (fun ch => ch ≠ Char.ofNat 0))

/-- new_window (MapNotify handler): read WM_CLASS (delivered with the event as
the adapter's property-read result; a failed read gives the empty string),
decide floating by the configured class list, push a new client, append it to
the focused screen's workspace if it is not floating, subscribe to enter/leave
events and reconcile the focused screen. -/
def new_window (cfg : Config) (s : WindowManager) (win_id : Nat) (prop : Option String) :
    WindowManager × List XRequest :=
  let wm_class :=
    match prop with
    | some st => firstClassComponent st
    | none => ""
  let floating := cfg.FLOATING_CLASSES.contains wm_class
  let s1 := { s with clients := s.clients ++ [Client.new win_id wm_class floating] }
  let s2 :=
    if floating then s1
    else modifyWorkspaceForScreen s1 s1.focused_screen (fun ws => ws.add_client win_id)
  (s2, XRequest.changeWindowAttributes win_id :: apply_layout cfg s2 s2.focused_screen)

/-- focus_window (EnterNotify handler): focus the matching client, unfocus all
the others, in client-vector order. -/
def focus_window (s : WindowManager) (win_id : Nat) : WindowManager × List XRequest :=
  let pairs := s.clients.map (fun c => if c.id == win_id then c.focus else c.unfocus)
  ({ s with clients := pairs.map Prod.fst }, pairs.flatMap Prod.snd)

/-- unfocus_window (LeaveNotify handler): unfocus the matching client. -/
def unfocus_window (s : WindowManager) (win_id : Nat) : WindowManager × List XRequest :=
  let pairs := s.clients.map (fun c => if c.id == win_id then c.unfocus else (c, []))
  ({ s with clients := pairs.map Prod.fst }, pairs.flatMap Prod.snd)

/-- destroy_window (DestroyNotify handler): remove the client and reconcile the
focused screen. -/
def destroy_window (cfg : Config) (s : WindowManager) (win_id : Nat) :
    WindowManager × List XRequest :=
  let s1 := s.remove_client win_id
  (s1, apply_layout cfg s1 s1.focused_screen)

/-- focused_client (manager): look up the focused ring id in the global client
vector; the source unwraps the lookup, so a dangling ring id is a panic,
rendered as the error case. -/
def focused_client (s : WindowManager) : Except Unit (Option Client) :=
  match (workspace_for_screen s s.focused_screen).focused_client with
  | some id =>
    match s.clients.find? (fun c => c.id == id) with
    | some c => Except.ok (some c)
    | none => Except.error ()
  | none => Except.ok none

/-- cycle_client (manager): cycle the focused workspace's ring focus; on a
returned (previous, current) pair, unfocus and focus the matching clients in
client-vector order. -/
def WindowManager.cycle_client (s : WindowManager) (d : Direction) :
    WindowManager × List XRequest :=
  let wix := (s.screens.getD s.focused_screen default).wix
  let ws := s.workspaces.getD wix default
  let r := ws.cycle_client d
  let s1 := { s with workspaces := s.workspaces.set wix r.1 }
  match r.2 with
  | some pc =>
    let pairs := s1.clients.map (fun c =>
      if c.id == pc.1 then c.unfocus else if c.id == pc.2 then c.focus else (c, []))
    ({ s1 with clients := pairs.map Prod.fst }, pairs.flatMap Prod.snd)
  | none => (s1, [])

/-- next_client command. -/
def next_client (s : WindowManager) : WindowManager × List XRequest :=
  s.cycle_client Direction.Forward

/-- previous_client command. -/
def previous_client (s : WindowManager) : WindowManager × List XRequest :=
  s.cycle_client Direction.Backward

/-- The xsetroot invocation switch_workspace spawns for each target index. -/
def xsetrootCmd : Nat → String
  | 0 => "xsetroot -solid #282828"
  | 1 => "xsetroot -solid #cc241d"
  | 2 => "xsetroot -solid #458588"
  | 3 => "xsetroot -solid #fabd2f"
  | 4 => "xsetroot -solid #b8bb26"
  | _ => "xsetroot -solid #ebdbb2"

/-- The source's scan `for i in 0..self.screens.len()` for the first screen
showing the given workspace index. -/
def findWix : List Screen → Nat → Option Nat
  | [], _ => none
  | sc :: rest, index =>
    if sc.wix = index then some 0
    else (findWix rest index).map (fun n => n + 1)

/-- The screen update of switch_workspace case 2: give screen i the wix shown on
screen f, then bind index to screen f (the source's two assignments in order). -/
def swapScreens (l : List Screen) (i f index : Nat) : List Screen :=
  let l1 := l.set i { l.getD i default with wix := (l.getD f default).wix }
  l1.set f { l1.getD f default with wix := index }

/-- The screen update of switch_workspace case 3: bind index to screen f. -/
def offScreens (l : List Screen) (f index : Nat) : List Screen :=
  l.set f { l.getD f default with wix := index }

/-- switch_workspace command: spawn xsetroot; if the target is already on the
focused screen do nothing; if it is on another screen swap the two wix values
and reconcile both screens; otherwise unmap the outgoing workspace, bind the
target to the focused screen, map its clients and reconcile. -/
def switch_workspace (cfg : Config) (s : WindowManager) (index : Nat) :
    WindowManager × List XRequest :=
  let fx0 := [XRequest.runExternal (xsetrootCmd index)]
  match findWix s.screens index with
  | some i =>
    if i = s.focused_screen then (s, fx0)
    else
      let s2 := { s with screens := swapScreens s.screens i s.focused_screen index }
      (s2, fx0 ++ apply_layout cfg s2 s.focused_screen ++ apply_layout cfg s2 i)
  | none =>
    let current := (s.screens.getD s.focused_screen default).wix
    let s2 := { s with screens := offScreens s.screens s.focused_screen index }
    (s2, fx0 ++ (s.workspaces.getD current default).unmap_clients
      ++ (s.workspaces.getD index default).map_clients
      ++ apply_layout cfg s2 s.focused_screen)

/-- client_to_workspace command: the source only logs and returns; no state is
touched and no request is sent. -/
def client_to_workspace (_cfg : Config) (s : WindowManager) (_index : Nat) :
    WindowManager × List XRequest :=
  (s, [])

/-- kill_client command: with no focused client, return immediately; otherwise
send WM_DELETE_WINDOW via WM_PROTOCOLS, flush, remove the client locally, run
next_client and reconcile the focused screen.  The focused-client lookup can
panic (the error case). -/
def kill_client (cfg : Config) (s : WindowManager) :
    Except Unit (WindowManager × List XRequest) :=
  match focused_client s with
  | Except.error e => Except.error e
  | Except.ok none => Except.ok (s, [])
  | Except.ok (some client) =>
    let id := client.id
    let wm_delete_window := intern_atom wmDeleteWindowName
    let wm_protocols := intern_atom wmProtocolsName
    let fx0 := [XRequest.sendClientMessage id wm_protocols wm_delete_window, XRequest.flushConn]
    let s1 := s.remove_client id
    let nc := next_client s1
    Except.ok (nc.1, fx0 ++ nc.2 ++ apply_layout cfg nc.1 nc.1.focused_screen)

/-- next_layout command. -/
def next_layout (cfg : Config) (s : WindowManager) : WindowManager × List XRequest :=
  let s1 := modifyWorkspaceForScreen s s.focused_screen (fun ws => ws.cycle_layout Direction.Forward)
  (s1, apply_layout cfg s1 s1.focused_screen)

/-- previous_layout command. -/
def previous_layout (cfg : Config) (s : WindowManager) : WindowManager × List XRequest :=
  let s1 := modifyWorkspaceForScreen s s.focused_screen (fun ws => ws.cycle_layout Direction.Backward)
  (s1, apply_layout cfg s1 s1.focused_screen)

/-- inc_main command. -/
def inc_main (cfg : Config) (s : WindowManager) : WindowManager × List XRequest :=
  let s1 := modifyWorkspaceForScreen s s.focused_screen (fun ws => ws.update_max_main Change.More)
  (s1, apply_layout cfg s1 s1.focused_screen)

/-- dec_main command. -/
def dec_main (cfg : Config) (s : WindowManager) : WindowManager × List XRequest :=
  let s1 := modifyWorkspaceForScreen s s.focused_screen (fun ws => ws.update_max_main Change.Less)
  (s1, apply_layout cfg s1 s1.focused_screen)

/-- inc_ratio command (step the main ratio up and reconcile). -/
def inc_ratio_step (cfg : Config) (s : WindowManager) : WindowManager × List XRequest :=
  let s1 := modifyWorkspaceForScreen s s.focused_screen (fun ws => ws.update_ratio_main Change.More)
  (s1, apply_layout cfg s1 s1.focused_screen)

/-- dec_ratio command (step the main ratio down and reconcile). -/
def dec_ratio_step (cfg : Config) (s : WindowManager) : WindowManager × List XRequest :=
  let s1 := modifyWorkspaceForScreen s s.focused_screen (fun ws => ws.update_ratio_main Change.Less)
  (s1, apply_layout cfg s1 s1.focused_screen)

/-- The events the run loop dispatches.  MapNotify carries the adapter's
WM_CLASS property-read result; key presses are rendered by the command their
binding invokes (spec sections 4.5 and 6). -/
inductive Event where
  | mapNotify (win : Nat) (prop : Option String)
  | enterNotify (win : Nat)
  | leaveNotify (win : Nat)
  | destroyNotify (win : Nat)
  | keySwitchWorkspace (k : Nat)
  | keyClientToWorkspace (k : Nat)
  | keyNextClient
  | keyPreviousClient
  | keyKillClient
  | keyNextLayout
  | keyPreviousLayout
  | keyIncMain
  | keyDecMain
  | keyIncRatioStep
  | keyDecRatioStep
deriving DecidableEq

/-- One dispatch of the run loop, without the trailing flush. -/
def step (cfg : Config) (s : WindowManager) :
    Event → Except Unit (WindowManager × List XRequest)
  | Event.mapNotify win prop => Except.ok (new_window cfg s win prop)
  | Event.enterNotify win => Except.ok (focus_window s win)
  | Event.leaveNotify win => Except.ok (unfocus_window s win)
  | Event.destroyNotify win => Except.ok (destroy_window cfg s win)
  | Event.keySwitchWorkspace k => Except.ok (switch_workspace cfg s k)
  | Event.keyClientToWorkspace k => Except.ok (client_to_workspace cfg s k)
  | Event.keyNextClient => Except.ok (next_client s)
  | Event.keyPreviousClient => Except.ok (previous_client s)
  | Event.keyKillClient => kill_client cfg s
  | Event.keyNextLayout => Except.ok (next_layout cfg s)
  | Event.keyPreviousLayout => Except.ok (previous_layout cfg s)
  | Event.keyIncMain => Except.ok (inc_main cfg s)
  | Event.keyDecMain => Except.ok (dec_main cfg s)
  | Event.keyIncRatioStep => Except.ok (inc_ratio_step cfg s)
  | Event.keyDecRatioStep => Except.ok (dec_ratio_step cfg s)

/-- The run loop over a list of events: dispatch each and flush, accumulating
the request trace. -/
def dispatchEvents (cfg : Config) (s : WindowManager) :
    List Event → Except Unit (WindowManager × List XRequest)
  | [] => Except.ok (s, [])
  | e :: rest =>
    match step cfg s e with
    | Except.error u => Except.error u
    | Except.ok p =>
      match dispatchEvents cfg p.1 rest with
      | Except.error u => Except.error u
      | Except.ok q => Except.ok (q.1, p.2 ++ [XRequest.flushConn] ++ q.2)

/-! ## The bar text widget (src/draw/bar/text.rs) -/

/-- Colors are opaque to the widget; rendered as an atom. -/
def Color : Type := Nat

instance : DecidableEq Color := fun a b => Nat.decEq a b

/-- An observable call on the draw context.  The f64 scalars of the source are
rendered as integers; none of the verified properties depends on their
arithmetic. -/
inductive CtxEffect where
  | setColor (c : Color)
  | rectangle (x y w h : Int)
  | setFont (font : String) (point_size : Int)
  | drawText (txt : String) (offset : Int) (padding : Int × Int)
  | queryTextExtent (txt font : String)
deriving DecidableEq

/-- How a widget call ends when it does not return Ok: a Rust panic (unwrap on
None) or an Err propagated from the draw context. -/
inductive DrawFailure where
  | panicked
  | failed
deriving DecidableEq

/-- The capability surface of the draw context the widget consumes: a
text-extent query that may fail, and failure flags for font and text calls. -/
structure DrawCtx where
  text_extent_fn : String → String → Except Unit (Int × Int)
  font_fails : Bool
  text_fails : Bool

/-- StaticText (src/draw/bar/text.rs): static text plus a cached extent. -/
structure StaticText where
  txt : String
  font : String
  point_size : Int
  fg : Color
  bg : Option Color
  padding : Int × Int
  is_greedy : Bool
  extent : Option (Int × Int)
deriving DecidableEq

/-- StaticText::new: the extent cache starts empty. -/
def StaticText.new (txt font : String) (point_size : Int) (fg : Color) (bg : Option Color)
    (padding : Int × Int) (is_greedy : Bool) : StaticText :=
  ⟨txt, font, point_size, fg, bg, padding, is_greedy, none⟩

/-- Widget::draw for StaticText: paint the background if any, then unwrap the
cached extent (a panic when it was never computed), set font and color and draw
the text. -/
def StaticText.draw (st : StaticText) (ctx : DrawCtx) (w h : Int) :
    Except DrawFailure (List CtxEffect) :=
  let bgFx :=
    match st.bg with
    | some color => [CtxEffect.setColor color, CtxEffect.rectangle 0 0 (w + st.padding.1 + st.padding.2) h]
    | none => []
  match st.extent with
  | none => Except.error DrawFailure.panicked
  | some e =>
    if ctx.font_fails then Except.error DrawFailure.failed
    else if ctx.text_fails then Except.error DrawFailure.failed
    else Except.ok (bgFx ++ [CtxEffect.setFont st.font st.point_size, CtxEffect.setColor st.fg,
      CtxEffect.drawText st.txt (h - e.2) st.padding])

/-- Widget::current_extent for StaticText: return the cached extent if present,
otherwise query the context once, pad the width, cache and return.  The result
carries the updated widget and the context calls made. -/
def StaticText.current_extent (st : StaticText) (ctx : DrawCtx) (_h : Int) :
    Except DrawFailure ((Int × Int) × StaticText × List CtxEffect) :=
  match st.extent with
  | some extent => Except.ok (extent, st, [])
  | none =>
    match ctx.text_extent_fn st.txt st.font with
    | Except.error _ => Except.error DrawFailure.failed
    | Except.ok wh =>
      let extent := (wh.1 + st.padding.1 + st.padding.2, wh.2)
      Except.ok (extent, { st with extent := some extent }, [CtxEffect.queryTextExtent st.txt st.font])

/-- Widget::require_draw for StaticText is constantly false. -/
def StaticText.require_draw (_st : StaticText) : Bool := false

/-! ## Invariants, projections and trace predicates -/

instance {ε α : Type} [DecidableEq ε] [DecidableEq α] : DecidableEq (Except ε α) := by
  intro a b
  cases a <;> cases b
  case error.error e f =>
    exact decidable_of_iff (e = f) ⟨fun h => by rw [h], fun h => by cases h; rfl⟩
  case ok.ok x y =>
    exact decidable_of_iff (x = y) ⟨fun h => by rw [h], fun h => by cases h; rfl⟩
  case error.ok e x => exact isFalse (fun h => by cases h)
  case ok.error x e => exact isFalse (fun h => by cases h)

/-- The ids in the global client vector, in order. -/
def clientIds (s : WindowManager) : List Nat := s.clients.map Client.id

/-- The ids across all workspace rings, workspace by workspace. -/
def ringIds (s : WindowManager) : List Nat := s.workspaces.flatMap Workspace.clients

/-- Client injectivity: no id is repeated in the client vector, and no id is
repeated across the workspace rings. -/
def ClientInjective (s : WindowManager) : Prop :=
  (clientIds s).Nodup ∧ (ringIds s).Nodup

instance (s : WindowManager) : Decidable (ClientInjective s) := by
  unfold ClientInjective
  infer_instance

/-- Ring soundness: every id in a workspace ring is in the client vector, and no
id is repeated across the rings. -/
def RingSound (s : WindowManager) : Prop :=
  (∀ a ∈ ringIds s, a ∈ clientIds s) ∧ (ringIds s).Nodup

instance (s : WindowManager) : Decidable (RingSound s) := by
  unfold RingSound
  infer_instance

/-- Screen injectivity: distinct screens show distinct workspace indices. -/
def SInj (l : List Screen) : Prop :=
  ∀ i, i < l.length → ∀ j, j < l.length → i ≠ j →
    (l.getD i default).wix ≠ (l.getD j default).wix

instance (l : List Screen) : Decidable (SInj l) := by
  unfold SInj
  infer_instance

/-- A MapNotify id is fresh when it is neither in the client vector nor in any
workspace ring. -/
def freshMapEventB (s : WindowManager) : Event → Bool
  | Event.mapNotify win _ => !(decide (win ∈ clientIds s)) && !(decide (win ∈ ringIds s))
  | _ => true

/-- Along a trace, every MapNotify is fresh at the state in which it is handled. -/
def traceFreshB (cfg : Config) (s : WindowManager) : List Event → Bool
  | [] => true
  | e :: rest =>
    freshMapEventB s e &&
      (match step cfg s e with
       | Except.ok p => traceFreshB cfg p.1 rest
       | Except.error _ => true)

/-- A DestroyNotify id is confined when no ring other than the focused screen's
workspace's ring holds it. -/
def destroyConfinedB (s : WindowManager) (win : Nat) : Bool :=
  let wix := (s.screens.getD s.focused_screen default).wix
  !(decide (win ∈ ((s.workspaces.take wix) ++ (s.workspaces.drop (wix + 1))).flatMap Workspace.clients))

/-- The per-event condition under which ring soundness is preserved: MapNotify
ids are outside every ring, DestroyNotify ids are confined. -/
def soundEventB (s : WindowManager) : Event → Bool
  | Event.mapNotify win _ => !(decide (win ∈ ringIds s))
  | Event.destroyNotify win => destroyConfinedB s win
  | _ => true

/-- Along a trace, every event satisfies the ring-soundness side condition at
the state in which it is handled. -/
def traceSoundB (cfg : Config) (s : WindowManager) : List Event → Bool
  | [] => true
  | e :: rest =>
    soundEventB s e &&
      (match step cfg s e with
       | Except.ok p => traceSoundB cfg p.1 rest
       | Except.error _ => true)

/-- The state-and-trace form of apply_layout: the receiver is a shared borrow in
the source (fn apply_layout(&self, ...)), so the state component is returned
untouched next to the issued requests. -/
def apply_layout_st (cfg : Config) (s : WindowManager) (screen : Nat) :
    WindowManager × List XRequest :=
  (s, apply_layout cfg s screen)

/-! ## Concrete states used by the closed theorems -/

/-- A configuration with two workspaces, no floating classes, border 2, gap 4. -/
def cfgA : Config := ⟨["1", "2"], [], 2, 4⟩

/-- A workspace that arranges nothing (the floating layout), keeping concrete
computations small. -/
def wsFloat (name : String) : Workspace := Workspace.new name [Layout.floating]

/-- One screen showing workspace 0 of two, no clients. -/
def sA : WindowManager :=
  ⟨[⟨⟨0, 0, 1000, 800⟩, 0⟩], [wsFloat ("1"), wsFloat ("2")], [], 0⟩

/-- One screen, one tiled workspace holding clients 10, 11, 12 with 10 focused;
the client vector matches the ring. -/
def sB : WindowManager :=
  ⟨[⟨⟨0, 0, 1000, 800⟩, 0⟩],
    [⟨"1", [10, 11, 12], some 0, [Layout.floating], 0, 1, 50⟩, wsFloat ("2")],
    [Client.new 10 ("a") false, Client.new 11 ("b") false, Client.new 12 ("c") false], 0⟩

/-- Two screens showing workspaces 0 and 1 of three. -/
def sC : WindowManager :=
  ⟨[⟨⟨0, 0, 1000, 800⟩, 0⟩, ⟨⟨1000, 0, 1000, 800⟩, 1⟩],
    [wsFloat ("1"), wsFloat ("2"), wsFloat ("3")], [], 0⟩

/-- One screen, one monocle workspace with a single client 10. -/
def sD : WindowManager :=
  ⟨[⟨⟨0, 0, 1000, 800⟩, 0⟩],
    [⟨"1", [10], some 0, [Layout.monocle], 0, 1, 50⟩, wsFloat ("2")],
    [Client.new 10 ("a") false], 0⟩

/-- A workspace whose ring holds id 5 while the client vector is empty: the
focused-client lookup dangles. -/
def sE : WindowManager :=
  ⟨[⟨⟨0, 0, 1000, 800⟩, 0⟩],
    [⟨"1", [5], some 0, [Layout.floating], 0, 1, 50⟩, wsFloat ("2")], [], 0⟩

/-- A static text widget with an empty extent cache. -/
def stA : StaticText := StaticText.new ("hello") ("mono") 12 (3 : Nat) none (1, 2) false

/-- A draw context whose text-extent query returns (7, 5). -/
def ctxA : DrawCtx := ⟨fun _ _ => Except.ok (7, 5), false, false⟩

/-! ## List helper lemmas -/

theorem list_set_oob {α : Type} (l : List α) (k : Nat) (a : α) (h : l.length ≤ k) :
    l.set k a = l := by
  induction l generalizing k with
  | nil => rfl
  | cons x t ih =>
    cases k with
    | zero => simp at h
    | succ k =>
      simp only [List.set]
      rw [ih k (by simpa using h)]

theorem list_getD_set_self {α : Type} [Inhabited α] (l : List α) (k : Nat) (a : α)
    (h : k < l.length) : (l.set k a).getD k default = a := by
  induction l generalizing k with
  | nil => simp at h
  | cons x t ih =>
    cases k with
    | zero => rfl
    | succ k => exact ih k (by simpa using h)

theorem list_getD_set_other {α : Type} [Inhabited α] (l : List α) (k j : Nat) (a : α)
    (h : k ≠ j) : (l.set k a).getD j default = l.getD j default := by
  induction l generalizing k j with
  | nil => rfl
  | cons x t ih =>
    cases k with
    | zero =>
      cases j with
      | zero => exact absurd rfl h
      | succ j => rfl
    | succ k =>
      cases j with
      | zero => rfl
      | succ j => exact ih k j (fun hh => h (by rw [hh]))

theorem list_set_getD_self {α : Type} [Inhabited α] (l : List α) (k : Nat) :
    l.set k (l.getD k default) = l := by
  induction l generalizing k with
  | nil => rfl
  | cons x t ih =>
    cases k with
    | zero => rfl
    | succ k => simp only [List.set, List.getD_cons_succ]; rw [ih k]

theorem list_getD_mem {α : Type} [Inhabited α] (l : List α) (k : Nat) (h : k < l.length) :
    l.getD k default ∈ l := by
  induction l generalizing k with
  | nil => simp at h
  | cons x t ih =>
    cases k with
    | zero => exact List.mem_cons_self x t
    | succ k => exact List.mem_cons_of_mem x (ih k (by simpa using h))

theorem flatMap_set_of_lt (l : List Workspace) (k : Nat) (ws : Workspace) (h : k < l.length) :
    (l.set k ws).flatMap Workspace.clients =
      (l.take k).flatMap Workspace.clients ++ ws.clients ++ (l.drop (k + 1)).flatMap Workspace.clients := by
  induction l generalizing k with
  | nil => simp at h
  | cons x t ih =>
    cases k with
    | zero => simp
    | succ k =>
      simp only [List.set, List.flatMap_cons, List.take_succ_cons, List.drop_succ_cons]
      rw [ih k (by simpa using h)]
      simp [List.append_assoc]

theorem flatMap_decompose_of_lt (l : List Workspace) (k : Nat) (h : k < l.length) :
    l.flatMap Workspace.clients =
      (l.take k).flatMap Workspace.clients ++ (l.getD k default).clients
        ++ (l.drop (k + 1)).flatMap Workspace.clients := by
  conv_lhs => rw [← list_set_getD_self l k]
  exact flatMap_set_of_lt l k (l.getD k default) h

theorem flatMap_set_clients_eq (l : List Workspace) (k : Nat) (ws : Workspace)
    (h : ws.clients = (l.getD k default).clients) :
    (l.set k ws).flatMap Workspace.clients = l.flatMap Workspace.clients := by
  by_cases hk : k < l.length
  · rw [flatMap_set_of_lt l k ws hk, flatMap_decompose_of_lt l k hk, h]
  · rw [list_set_oob l k ws (Nat.le_of_not_lt hk)]

theorem map_fst_id_preserving (cs : List Client) (g : Client → Client × List XRequest)
    (h : ∀ c, (g c).1.id = c.id) :
    ((cs.map g).map Prod.fst).map Client.id = cs.map Client.id := by
  induction cs with
  | nil => rfl
  | cons c t ih => simp only [List.map_cons, h c, ih]

theorem map_id_filter_ne (cs : List Client) (win : Nat) :
    (cs.filter (fun c => c.id != win)).map Client.id =
      (cs.map Client.id).filter (fun a => a != win) := by
  induction cs with
  | nil => rfl
  | cons c t ih =>
    by_cases h : c.id = win
    · simp [List.filter_cons, h, ih]
    · simp [List.filter_cons, h, ih]

theorem findWix_some_lt (l : List Screen) (index i : Nat) (h : findWix l index = some i) :
    i < l.length ∧ (l.getD i default).wix = index := by
  induction l generalizing i with
  | nil => simp [findWix] at h
  | cons sc t ih =>
    by_cases hs : sc.wix = index
    · simp [findWix, hs] at h
      subst h
      exact ⟨Nat.succ_pos _, hs⟩
    · simp only [findWix, if_neg hs] at h
      rcases Option.map_eq_some'.mp h with ⟨n, hn, hi⟩
      rcases ih n hn with ⟨h1, h2⟩
      subst hi
      exact ⟨Nat.succ_lt_succ h1, h2⟩

theorem findWix_none_iff (l : List Screen) (index : Nat) :
    findWix l index = none ↔ ∀ j, j < l.length → (l.getD j default).wix ≠ index := by
  induction l with
  | nil => simp [findWix]
  | cons sc t ih =>
    by_cases hs : sc.wix = index
    · simp only [findWix, if_pos hs]
      constructor
      · intro h; cases h
      · intro h
        exact absurd hs (h 0 (Nat.succ_pos _))
    · simp only [findWix, if_neg hs, Option.map_eq_none']
      rw [ih]
      constructor
      · intro h j hj
        cases j with
        | zero => exact hs
        | succ j => exact h j (Nat.lt_of_succ_lt_succ hj)
      · intro h j hj
        exact h (j + 1) (Nat.succ_lt_succ hj)

theorem sinj_tail (sc : Screen) (t : List Screen) (h : SInj (sc :: t)) : SInj t := by
  intro i hi j hj hne
  have := h (i + 1) (Nat.succ_lt_succ hi) (j + 1) (Nat.succ_lt_succ hj)
    (fun hh => hne (Nat.succ_injective hh))
  simpa using this

theorem findWix_unique (l : List Screen) (index j : Nat) (hinj : SInj l)
    (hj : j < l.length) (hwix : (l.getD j default).wix = index) :
    findWix l index = some j := by
  induction l generalizing j with
  | nil => simp at hj
  | cons sc t ih =>
    cases j with
    | zero =>
      simp only [List.getD_cons_zero] at hwix
      simp [findWix, hwix]
    | succ j =>
      have hjt : j < t.length := Nat.lt_of_succ_lt_succ hj
      have hwt : (t.getD j default).wix = index := by simpa using hwix
      have hne : sc.wix ≠ index := by
        have h0 := hinj 0 (Nat.succ_pos _) (j + 1) hj (by simp)
        rw [List.getD_cons_zero, List.getD_cons_succ, hwt] at h0
        exact h0
      simp only [findWix, if_neg hne]
      rw [ih j (sinj_tail sc t hinj) hjt hwt]
      rfl

/-! ## Per-operation projection lemmas -/

theorem cycle_client_clients_ws (ws : Workspace) (d : Direction) :
    ((ws.cycle_client d).1).clients = ws.clients := by
  unfold Workspace.cycle_client
  split
  · rfl
  · split
    · rfl
    · cases d <;> (dsimp only; split <;> rfl)

theorem map_comp_id_preserving (cs : List Client) (g : Client → Client × List XRequest)
    (h : ∀ c, (g c).1.id = c.id) :
    cs.map (Client.id ∘ Prod.fst ∘ g) = cs.map Client.id := by
  induction cs with
  | nil => rfl
  | cons c t ih =>
    simp only [List.map_cons, Function.comp_apply, h c, ih]

theorem cycle_client_ringIds (s : WindowManager) (d : Direction) :
    ringIds (s.cycle_client d).1 = ringIds s := by
  unfold WindowManager.cycle_client
  dsimp only
  split
  · simp only [ringIds]
    exact flatMap_set_clients_eq _ _ _ (cycle_client_clients_ws _ d)
  · simp only [ringIds]
    exact flatMap_set_clients_eq _ _ _ (cycle_client_clients_ws _ d)

theorem cycle_client_clientIds (s : WindowManager) (d : Direction) :
    clientIds (s.cycle_client d).1 = clientIds s := by
  unfold WindowManager.cycle_client
  dsimp only
  split
  · simp only [clientIds, List.map_map]
    apply map_comp_id_preserving
    intro c
    dsimp only
    split
    · rfl
    · split <;> rfl
  · rfl

theorem focus_window_clientIds (s : WindowManager) (win : Nat) :
    clientIds (focus_window s win).1 = clientIds s := by
  unfold focus_window
  simp only [clientIds, List.map_map]
  apply map_comp_id_preserving
  intro c
  dsimp only
  split <;> rfl

theorem focus_window_ringIds (s : WindowManager) (win : Nat) :
    ringIds (focus_window s win).1 = ringIds s := rfl

theorem unfocus_window_clientIds (s : WindowManager) (win : Nat) :
    clientIds (unfocus_window s win).1 = clientIds s := by
  unfold unfocus_window
  simp only [clientIds, List.map_map]
  apply map_comp_id_preserving
  intro c
  dsimp only
  split <;> rfl

theorem unfocus_window_ringIds (s : WindowManager) (win : Nat) :
    ringIds (unfocus_window s win).1 = ringIds s := rfl

theorem switch_workspace_workspaces (cfg : Config) (s : WindowManager) (k : Nat) :
    ((switch_workspace cfg s k).1).workspaces = s.workspaces := by
  unfold switch_workspace
  split
  · split <;> rfl
  · rfl

theorem switch_workspace_clients (cfg : Config) (s : WindowManager) (k : Nat) :
    ((switch_workspace cfg s k).1).clients = s.clients := by
  unfold switch_workspace
  split
  · split <;> rfl
  · rfl

theorem switch_workspace_focused_screen (cfg : Config) (s : WindowManager) (k : Nat) :
    ((switch_workspace cfg s k).1).focused_screen = s.focused_screen := by
  unfold switch_workspace
  split
  · split <;> rfl
  · rfl

theorem modify_ws_ringIds (s : WindowManager) (i : Nat) (f : Workspace → Workspace)
    (hf : ∀ ws, (f ws).clients = ws.clients) :
    ringIds (modifyWorkspaceForScreen s i f) = ringIds s := by
  unfold modifyWorkspaceForScreen
  simp only [ringIds]
  exact flatMap_set_clients_eq _ _ _ (hf _)

theorem modify_ws_clientIds (s : WindowManager) (i : Nat) (f : Workspace → Workspace) :
    clientIds (modifyWorkspaceForScreen s i f) = clientIds s := rfl

theorem nodup_append_one (l : List Nat) (a : Nat) (h : l.Nodup) (ha : a ∉ l) :
    (l ++ [a]).Nodup := by
  have hp : List.Perm (l ++ [a]) (a :: l) := by
    have hm := @List.perm_middle Nat a l []
    rw [List.append_nil] at hm
    exact hm
  exact hp.symm.nodup (h.cons ha)

theorem new_window_clientIds (cfg : Config) (s : WindowManager) (win : Nat)
    (prop : Option String) :
    clientIds (new_window cfg s win prop).1 = clientIds s ++ [win] := by
  unfold new_window
  dsimp only
  split
  · simp [clientIds, Client.new]
  · simp [clientIds, modifyWorkspaceForScreen, Client.new]

theorem new_window_ringIds (cfg : Config) (s : WindowManager) (win : Nat)
    (prop : Option String) :
    ringIds (new_window cfg s win prop).1 = ringIds s ∨
      List.Perm (ringIds (new_window cfg s win prop).1) (win :: ringIds s) := by
  unfold new_window modifyWorkspaceForScreen
  dsimp only
  split
  · left; rfl
  · by_cases hk : (s.screens.getD s.focused_screen default).wix < s.workspaces.length
    · right
      simp only [ringIds]
      rw [flatMap_set_of_lt _ _ _ hk, flatMap_decompose_of_lt _ _ hk]
      simp only [Workspace.add_client]
      have hsplit :
          (s.workspaces.take (s.screens.getD s.focused_screen default).wix).flatMap Workspace.clients
            ++ ((s.workspaces.getD (s.screens.getD s.focused_screen default).wix default).clients ++ [win])
            ++ (s.workspaces.drop ((s.screens.getD s.focused_screen default).wix + 1)).flatMap Workspace.clients
          = ((s.workspaces.take (s.screens.getD s.focused_screen default).wix).flatMap Workspace.clients
            ++ (s.workspaces.getD (s.screens.getD s.focused_screen default).wix default).clients)
            ++ win :: (s.workspaces.drop ((s.screens.getD s.focused_screen default).wix + 1)).flatMap Workspace.clients := by
        simp [List.append_assoc]
      rw [hsplit]
      have hp := @List.perm_middle Nat win
        ((s.workspaces.take (s.screens.getD s.focused_screen default).wix).flatMap Workspace.clients
          ++ (s.workspaces.getD (s.screens.getD s.focused_screen default).wix default).clients)
        ((s.workspaces.drop ((s.screens.getD s.focused_screen default).wix + 1)).flatMap Workspace.clients)
      refine hp.trans ?_
      simp [List.append_assoc]
    · left
      simp only [ringIds]
      rw [list_set_oob _ _ _ (Nat.le_of_not_lt hk)]

theorem remove_client_clients_ws (ws : Workspace) (id : Nat) :
    (ws.remove_client id).clients =
      if id ∈ ws.clients then ws.clients.erase id else ws.clients := by
  by_cases h : id ∈ ws.clients <;> simp [Workspace.remove_client, h]

theorem remove_client_clientIds (s : WindowManager) (win : Nat) :
    clientIds (s.remove_client win) = (clientIds s).filter (fun a => a != win) := by
  simp only [WindowManager.remove_client, modifyWorkspaceForScreen, clientIds]
  exact map_id_filter_ne s.clients win

theorem flatMap_set_sublist (l : List Workspace) (k : Nat) (ws : Workspace)
    (h : List.Sublist ws.clients (l.getD k default).clients) :
    List.Sublist ((l.set k ws).flatMap Workspace.clients) (l.flatMap Workspace.clients) := by
  by_cases hk : k < l.length
  · rw [flatMap_set_of_lt _ _ _ hk]
    conv_rhs => rw [flatMap_decompose_of_lt _ _ hk]
    exact List.Sublist.append (List.Sublist.append (List.Sublist.refl _) h) (List.Sublist.refl _)
  · rw [list_set_oob _ _ _ (Nat.le_of_not_lt hk)]

theorem remove_client_ringIds_sublist (s : WindowManager) (win : Nat) :
    List.Sublist (ringIds (s.remove_client win)) (ringIds s) := by
  simp only [WindowManager.remove_client, modifyWorkspaceForScreen, ringIds]
  apply flatMap_set_sublist
  rw [remove_client_clients_ws]
  split
  · exact List.erase_sublist _ _
  · exact List.Sublist.refl _

theorem destroyConfined_spec (s : WindowManager) (win : Nat)
    (h : destroyConfinedB s win = true) :
    win ∉ (s.workspaces.take (s.screens.getD s.focused_screen default).wix).flatMap Workspace.clients
      ∧ win ∉ (s.workspaces.drop ((s.screens.getD s.focused_screen default).wix + 1)).flatMap Workspace.clients := by
  simp only [destroyConfinedB, Bool.not_eq_true', decide_eq_false_iff_not,
    List.flatMap_append, List.mem_append] at h
  exact ⟨fun ha => h (Or.inl ha), fun hc => h (Or.inr hc)⟩

theorem remove_client_RingSound (s : WindowManager) (win : Nat)
    (hs : RingSound s) (hconf : destroyConfinedB s win = true) :
    RingSound (s.remove_client win) := by
  obtain ⟨hsub, hnd⟩ := hs
  obtain ⟨hA, hC⟩ := destroyConfined_spec s win hconf
  constructor
  · intro a ha
    rw [remove_client_clientIds, List.mem_filter, bne_iff_ne]
    by_cases hk : (s.screens.getD s.focused_screen default).wix < s.workspaces.length
    · simp only [WindowManager.remove_client, modifyWorkspaceForScreen, ringIds] at ha
      rw [flatMap_set_of_lt _ _ _ hk] at ha
      have hdec := flatMap_decompose_of_lt s.workspaces
        (s.screens.getD s.focused_screen default).wix hk
      have hBnd : ((s.workspaces.getD (s.screens.getD s.focused_screen default).wix default).clients).Nodup := by
        rw [ringIds, hdec] at hnd
        exact (List.nodup_append.mp (List.nodup_append.mp hnd).1).2.1
      rcases List.mem_append.mp ha with hAB | haC
      · rcases List.mem_append.mp hAB with haA | haB
        · have hmem : a ∈ ringIds s := by
            rw [ringIds, hdec]
            exact List.mem_append.mpr (Or.inl (List.mem_append.mpr (Or.inl haA)))
          exact ⟨hsub a hmem, fun he => hA (he ▸ haA)⟩
        · rw [remove_client_clients_ws] at haB
          by_cases hwB : win ∈ (s.workspaces.getD (s.screens.getD s.focused_screen default).wix default).clients
          · rw [if_pos hwB] at haB
            obtain ⟨hne, haB0⟩ := (List.Nodup.mem_erase_iff hBnd).mp haB
            have hmem : a ∈ ringIds s := by
              rw [ringIds, hdec]
              exact List.mem_append.mpr (Or.inl (List.mem_append.mpr (Or.inr haB0)))
            exact ⟨hsub a hmem, hne⟩
          · rw [if_neg hwB] at haB
            have hmem : a ∈ ringIds s := by
              rw [ringIds, hdec]
              exact List.mem_append.mpr (Or.inl (List.mem_append.mpr (Or.inr haB)))
            exact ⟨hsub a hmem, fun he => hwB (he ▸ haB)⟩
      · have hmem : a ∈ ringIds s := by
          rw [ringIds, hdec]
          exact List.mem_append.mpr (Or.inr haC)
        exact ⟨hsub a hmem, fun he => hC (he ▸ haC)⟩
    · have hAeq : s.workspaces.take (s.screens.getD s.focused_screen default).wix = s.workspaces :=
        List.take_of_length_le (Nat.le_of_not_lt hk)
      have hwin : win ∉ ringIds s := by
        rw [ringIds, ← hAeq]
        exact hA
      have haeq : a ∈ ringIds s := by
        simpa only [WindowManager.remove_client, modifyWorkspaceForScreen, ringIds,
          list_set_oob _ _ _ (Nat.le_of_not_lt hk)] using ha
      exact ⟨hsub a haeq, fun he => hwin (he ▸ haeq)⟩
  · exact List.Nodup.sublist (remove_client_ringIds_sublist s win) hnd

theorem list_getD_oob {α : Type} [Inhabited α] (l : List α) (k : Nat) (h : l.length ≤ k) :
    l.getD k default = default := by
  induction l generalizing k with
  | nil => rfl
  | cons x t ih =>
    cases k with
    | zero => simp at h
    | succ k => exact ih k (by simpa using h)

theorem focused_client_mem (s : WindowManager) (c : Client)
    (h : focused_client s = Except.ok (some c)) :
    (s.screens.getD s.focused_screen default).wix < s.workspaces.length ∧
      c.id ∈ (s.workspaces.getD (s.screens.getD s.focused_screen default).wix default).clients := by
  unfold focused_client at h
  by_cases hk : (s.screens.getD s.focused_screen default).wix < s.workspaces.length
  · refine ⟨hk, ?_⟩
    cases hfc : (workspace_for_screen s s.focused_screen).focused_client with
    | none => rw [hfc] at h; cases h
    | some id =>
      rw [hfc] at h
      dsimp only at h
      cases hfind : s.clients.find? (fun cl => cl.id == id) with
      | none => rw [hfind] at h; cases h
      | some c2 =>
        rw [hfind] at h
        injection h with h1
        injection h1 with h2
        have hcid : c2.id = id := by simpa using List.find?_some hfind
        obtain ⟨i, hi⟩ := Option.bind_eq_some.mp hfc
        rw [← h2, hcid]
        exact List.getElem?_mem hi.2
  · exfalso
    have hdef : workspace_for_screen s s.focused_screen = default := by
      unfold workspace_for_screen
      exact list_getD_oob _ _ (Nat.le_of_not_lt hk)
    rw [hdef] at h
    cases h

theorem focused_id_confined (s : WindowManager) (c : Client)
    (hnd : (ringIds s).Nodup) (h : focused_client s = Except.ok (some c)) :
    destroyConfinedB s c.id = true := by
  obtain ⟨hk, hmem⟩ := focused_client_mem s c h
  have hdec := flatMap_decompose_of_lt s.workspaces
    (s.screens.getD s.focused_screen default).wix hk
  rw [ringIds, hdec] at hnd
  simp only [destroyConfinedB, Bool.not_eq_true', decide_eq_false_iff_not,
    List.flatMap_append, List.mem_append]
  intro hcontra
  rcases hcontra with hA | hC
  · exact (List.nodup_append.mp (List.nodup_append.mp hnd).1).2.2 hA hmem
  · exact (List.nodup_append.mp hnd).2.2 (List.mem_append.mpr (Or.inr hmem)) hC

theorem ClientInjective_congr (s1 s2 : WindowManager) (hc : clientIds s2 = clientIds s1)
    (hr : ringIds s2 = ringIds s1) (h : ClientInjective s1) : ClientInjective s2 := by
  unfold ClientInjective
  rw [hc, hr]
  exact h

theorem RingSound_congr (s1 s2 : WindowManager) (hc : clientIds s2 = clientIds s1)
    (hr : ringIds s2 = ringIds s1) (h : RingSound s1) : RingSound s2 := by
  unfold RingSound
  rw [hc, hr]
  exact h

theorem remove_client_ClientInjective (s : WindowManager) (win : Nat)
    (hinv : ClientInjective s) : ClientInjective (s.remove_client win) := by
  constructor
  · rw [remove_client_clientIds]
    exact hinv.1.filter _
  · exact List.Nodup.sublist (remove_client_ringIds_sublist s win) hinv.2

theorem cycle_layout_clients (ws : Workspace) (d : Direction) :
    (ws.cycle_layout d).clients = ws.clients := by
  unfold Workspace.cycle_layout
  cases d <;> (dsimp only; split <;> rfl)

theorem update_max_main_clients (ws : Workspace) (c : Change) :
    (ws.update_max_main c).clients = ws.clients := by
  cases c <;> rfl

theorem update_ratio_main_clients (ws : Workspace) (c : Change) :
    (ws.update_ratio_main c).clients = ws.clients := by
  cases c <;> rfl

theorem switch_clientIds (cfg : Config) (s : WindowManager) (k : Nat) :
    clientIds (switch_workspace cfg s k).1 = clientIds s := by
  unfold clientIds
  rw [switch_workspace_clients]

theorem switch_ringIds (cfg : Config) (s : WindowManager) (k : Nat) :
    ringIds (switch_workspace cfg s k).1 = ringIds s := by
  unfold ringIds
  rw [switch_workspace_workspaces]

theorem step_ClientInjective (cfg : Config) (s : WindowManager) (e : Event)
    (p : WindowManager × List XRequest) (hinv : ClientInjective s)
    (hfr : freshMapEventB s e = true) (hstep : step cfg s e = Except.ok p) :
    ClientInjective p.1 := by
  cases e with
  | mapNotify win prop =>
    simp only [step] at hstep
    injection hstep with h1
    subst h1
    simp only [freshMapEventB, Bool.and_eq_true, Bool.not_eq_true',
      decide_eq_false_iff_not] at hfr
    obtain ⟨hfc, hfrg⟩ := hfr
    constructor
    · rw [new_window_clientIds]
      exact nodup_append_one _ _ hinv.1 hfc
    · rcases new_window_ringIds cfg s win prop with heq | hperm
      · rw [heq]
        exact hinv.2
      · exact hperm.symm.nodup (hinv.2.cons hfrg)
  | enterNotify win =>
    simp only [step] at hstep
    injection hstep with h1
    subst h1
    exact ClientInjective_congr s _ (focus_window_clientIds s win) (focus_window_ringIds s win) hinv
  | leaveNotify win =>
    simp only [step] at hstep
    injection hstep with h1
    subst h1
    exact ClientInjective_congr s _ (unfocus_window_clientIds s win) (unfocus_window_ringIds s win) hinv
  | destroyNotify win =>
    simp only [step, destroy_window] at hstep
    injection hstep with h1
    subst h1
    exact remove_client_ClientInjective s win hinv
  | keySwitchWorkspace k =>
    simp only [step] at hstep
    injection hstep with h1
    subst h1
    exact ClientInjective_congr s _ (switch_clientIds cfg s k) (switch_ringIds cfg s k) hinv
  | keyClientToWorkspace k =>
    simp only [step, client_to_workspace] at hstep
    injection hstep with h1
    subst h1
    exact hinv
  | keyNextClient =>
    simp only [step, next_client] at hstep
    injection hstep with h1
    subst h1
    exact ClientInjective_congr s _ (cycle_client_clientIds s _) (cycle_client_ringIds s _) hinv
  | keyPreviousClient =>
    simp only [step, previous_client] at hstep
    injection hstep with h1
    subst h1
    exact ClientInjective_congr s _ (cycle_client_clientIds s _) (cycle_client_ringIds s _) hinv
  | keyKillClient =>
    simp only [step, kill_client] at hstep
    cases hfc : focused_client s with
    | error u =>
      rw [hfc] at hstep
      cases hstep
    | ok oc =>
      rw [hfc] at hstep
      cases oc with
      | none =>
        dsimp only at hstep
        injection hstep with h1
        subst h1
        exact hinv
      | some c =>
        dsimp only at hstep
        injection hstep with h1
        subst h1
        refine ClientInjective_congr _ _ (cycle_client_clientIds _ _) (cycle_client_ringIds _ _) ?_
        exact remove_client_ClientInjective s c.id hinv
  | keyNextLayout =>
    simp only [step, next_layout] at hstep
    injection hstep with h1
    subst h1
    exact ClientInjective_congr s _ (modify_ws_clientIds s _ _)
      (modify_ws_ringIds s _ _ (fun ws => cycle_layout_clients ws _)) hinv
  | keyPreviousLayout =>
    simp only [step, previous_layout] at hstep
    injection hstep with h1
    subst h1
    exact ClientInjective_congr s _ (modify_ws_clientIds s _ _)
      (modify_ws_ringIds s _ _ (fun ws => cycle_layout_clients ws _)) hinv
  | keyIncMain =>
    simp only [step, inc_main] at hstep
    injection hstep with h1
    subst h1
    exact ClientInjective_congr s _ (modify_ws_clientIds s _ _)
      (modify_ws_ringIds s _ _ (fun ws => update_max_main_clients ws _)) hinv
  | keyDecMain =>
    simp only [step, dec_main] at hstep
    injection hstep with h1
    subst h1
    exact ClientInjective_congr s _ (modify_ws_clientIds s _ _)
      (modify_ws_ringIds s _ _ (fun ws => update_max_main_clients ws _)) hinv
  | keyIncRatioStep =>
    simp only [step, inc_ratio_step] at hstep
    injection hstep with h1
    subst h1
    exact ClientInjective_congr s _ (modify_ws_clientIds s _ _)
      (modify_ws_ringIds s _ _ (fun ws => update_ratio_main_clients ws _)) hinv
  | keyDecRatioStep =>
    simp only [step, dec_ratio_step] at hstep
    injection hstep with h1
    subst h1
    exact ClientInjective_congr s _ (modify_ws_clientIds s _ _)
      (modify_ws_ringIds s _ _ (fun ws => update_ratio_main_clients ws _)) hinv

theorem step_RingSound (cfg : Config) (s : WindowManager) (e : Event)
    (p : WindowManager × List XRequest) (hs : RingSound s)
    (hse : soundEventB s e = true) (hstep : step cfg s e = Except.ok p) :
    RingSound p.1 := by
  cases e with
  | mapNotify win prop =>
    simp only [step] at hstep
    injection hstep with h1
    subst h1
    simp only [soundEventB, Bool.not_eq_true', decide_eq_false_iff_not] at hse
    constructor
    · intro a ha
      rw [new_window_clientIds, List.mem_append]
      rcases new_window_ringIds cfg s win prop with heq | hperm
      · rw [heq] at ha
        exact Or.inl (hs.1 a ha)
      · rcases List.mem_cons.mp (hperm.mem_iff.mp ha) with hwin | hold
        · exact Or.inr (by simp [hwin])
        · exact Or.inl (hs.1 a hold)
    · rcases new_window_ringIds cfg s win prop with heq | hperm
      · rw [heq]
        exact hs.2
      · exact hperm.symm.nodup (hs.2.cons hse)
  | enterNotify win =>
    simp only [step] at hstep
    injection hstep with h1
    subst h1
    exact RingSound_congr s _ (focus_window_clientIds s win) (focus_window_ringIds s win) hs
  | leaveNotify win =>
    simp only [step] at hstep
    injection hstep with h1
    subst h1
    exact RingSound_congr s _ (unfocus_window_clientIds s win) (unfocus_window_ringIds s win) hs
  | destroyNotify win =>
    simp only [step, destroy_window] at hstep
    injection hstep with h1
    subst h1
    exact remove_client_RingSound s win hs hse
  | keySwitchWorkspace k =>
    simp only [step] at hstep
    injection hstep with h1
    subst h1
    exact RingSound_congr s _ (switch_clientIds cfg s k) (switch_ringIds cfg s k) hs
  | keyClientToWorkspace k =>
    simp only [step, client_to_workspace] at hstep
    injection hstep with h1
    subst h1
    exact hs
  | keyNextClient =>
    simp only [step, next_client] at hstep
    injection hstep with h1
    subst h1
    exact RingSound_congr s _ (cycle_client_clientIds s _) (cycle_client_ringIds s _) hs
  | keyPreviousClient =>
    simp only [step, previous_client] at hstep
    injection hstep with h1
    subst h1
    exact RingSound_congr s _ (cycle_client_clientIds s _) (cycle_client_ringIds s _) hs
  | keyKillClient =>
    simp only [step, kill_client] at hstep
    cases hfc : focused_client s with
    | error u =>
      rw [hfc] at hstep
      cases hstep
    | ok oc =>
      rw [hfc] at hstep
      cases oc with
      | none =>
        dsimp only at hstep
        injection hstep with h1
        subst h1
        exact hs
      | some c =>
        dsimp only at hstep
        injection hstep with h1
        subst h1
        refine RingSound_congr _ _ (cycle_client_clientIds _ _) (cycle_client_ringIds _ _) ?_
        exact remove_client_RingSound s c.id hs (focused_id_confined s c hs.2 hfc)
  | keyNextLayout =>
    simp only [step, next_layout] at hstep
    injection hstep with h1
    subst h1
    exact RingSound_congr s _ (modify_ws_clientIds s _ _)
      (modify_ws_ringIds s _ _ (fun ws => cycle_layout_clients ws _)) hs
  | keyPreviousLayout =>
    simp only [step, previous_layout] at hstep
    injection hstep with h1
    subst h1
    exact RingSound_congr s _ (modify_ws_clientIds s _ _)
      (modify_ws_ringIds s _ _ (fun ws => cycle_layout_clients ws _)) hs
  | keyIncMain =>
    simp only [step, inc_main] at hstep
    injection hstep with h1
    subst h1
    exact RingSound_congr s _ (modify_ws_clientIds s _ _)
      (modify_ws_ringIds s _ _ (fun ws => update_max_main_clients ws _)) hs
  | keyDecMain =>
    simp only [step, dec_main] at hstep
    injection hstep with h1
    subst h1
    exact RingSound_congr s _ (modify_ws_clientIds s _ _)
      (modify_ws_ringIds s _ _ (fun ws => update_max_main_clients ws _)) hs
  | keyIncRatioStep =>
    simp only [step, inc_ratio_step] at hstep
    injection hstep with h1
    subst h1
    exact RingSound_congr s _ (modify_ws_clientIds s _ _)
      (modify_ws_ringIds s _ _ (fun ws => update_ratio_main_clients ws _)) hs
  | keyDecRatioStep =>
    simp only [step, dec_ratio_step] at hstep
    injection hstep with h1
    subst h1
    exact RingSound_congr s _ (modify_ws_clientIds s _ _)
      (modify_ws_ringIds s _ _ (fun ws => update_ratio_main_clients ws _)) hs

theorem dispatch_ClientInjective (cfg : Config) (evs : List Event) :
    ∀ (s : WindowManager) (p : WindowManager × List XRequest),
      ClientInjective s → traceFreshB cfg s evs = true →
      dispatchEvents cfg s evs = Except.ok p → ClientInjective p.1 := by
  induction evs with
  | nil =>
    intro s p hinv _ hrun
    simp only [dispatchEvents] at hrun
    injection hrun with h1
    subst h1
    exact hinv
  | cons e rest ih =>
    intro s p hinv htr hrun
    simp only [traceFreshB, Bool.and_eq_true] at htr
    obtain ⟨hfr, htr2⟩ := htr
    simp only [dispatchEvents] at hrun
    cases hstep : step cfg s e with
    | error u =>
      rw [hstep] at hrun
      cases hrun
    | ok q =>
      rw [hstep] at hrun
      rw [hstep] at htr2
      dsimp only at hrun htr2
      cases hrest : dispatchEvents cfg q.1 rest with
      | error u =>
        rw [hrest] at hrun
        cases hrun
      | ok r =>
        rw [hrest] at hrun
        dsimp only at hrun
        injection hrun with h1
        subst h1
        exact ih q.1 r (step_ClientInjective cfg s e q hinv hfr hstep) htr2 hrest

theorem dispatch_RingSound (cfg : Config) (evs : List Event) :
    ∀ (s : WindowManager) (p : WindowManager × List XRequest),
      RingSound s → traceSoundB cfg s evs = true →
      dispatchEvents cfg s evs = Except.ok p → RingSound p.1 := by
  induction evs with
  | nil =>
    intro s p hs _ hrun
    simp only [dispatchEvents] at hrun
    injection hrun with h1
    subst h1
    exact hs
  | cons e rest ih =>
    intro s p hs htr hrun
    simp only [traceSoundB, Bool.and_eq_true] at htr
    obtain ⟨hse, htr2⟩ := htr
    simp only [dispatchEvents] at hrun
    cases hstep : step cfg s e with
    | error u =>
      rw [hstep] at hrun
      cases hrun
    | ok q =>
      rw [hstep] at hrun
      rw [hstep] at htr2
      dsimp only at hrun htr2
      cases hrest : dispatchEvents cfg q.1 rest with
      | error u =>
        rw [hrest] at hrun
        cases hrun
      | ok r =>
        rw [hrest] at hrun
        dsimp only at hrun
        injection hrun with h1
        subst h1
        exact ih q.1 r (step_RingSound cfg s e q hs hse hstep) htr2 hrest

/-- C1 (amended): along any dispatched event sequence in which every MapNotify
carries a window id that, at the moment it is handled, is neither in the global
client vector nor in any workspace ring, each client id appears at most once in
the client vector and at most once across all workspace rings. -/
theorem client_injectivity_of_fresh_maps (cfg : Config) (evs : List Event)
    (s : WindowManager) (p : WindowManager × List XRequest)
    (hinv : ClientInjective s) (hfresh : traceFreshB cfg s evs = true)
    (hrun : dispatchEvents cfg s evs = Except.ok p) : ClientInjective p.1 :=
  dispatch_ClientInjective cfg evs s p hinv hfresh hrun

theorem client_injectivity_of_fresh_maps_witness :
    ClientInjective sA
      ∧ traceFreshB cfgA sA [Event.mapNotify 10 none, Event.destroyNotify 10] = true
      ∧ ClientInjective sA := by
  refine ⟨by decide, by decide, ?_⟩
  exact client_injectivity_of_fresh_maps cfgA [Event.mapNotify 10 none, Event.destroyNotify 10]
    sA (sA, [XRequest.changeWindowAttributes 10, XRequest.flushConn, XRequest.flushConn])
    (by decide) (by decide) (by decide)

/-- C1 counterexample: handling a MapNotify for an already-tracked window is not
a no-op; after two MapNotify events for id 10 the client vector and the rings
both hold 10 twice. -/
theorem mapNotify_duplicate_breaks_injectivity :
    (dispatchEvents cfgA sA [Event.mapNotify 10 none, Event.mapNotify 10 none]).toOption.map
      (fun p => ((clientIds p.1).count 10, (ringIds p.1).count 10)) = some (2, 2) := by
  decide

/-- C2 (amended): ring ids stay inside the client vector. -/
theorem ring_ids_exist_of_confined_events (cfg : Config) (evs : List Event)
    (s : WindowManager) (p : WindowManager × List XRequest)
    (hs : RingSound s) (hsound : traceSoundB cfg s evs = true)
    (hrun : dispatchEvents cfg s evs = Except.ok p) :
    ∀ a ∈ ringIds p.1, a ∈ clientIds p.1 :=
  (dispatch_RingSound cfg evs s p hs hsound hrun).1

theorem ring_ids_exist_of_confined_events_witness :
    RingSound sA
      ∧ traceSoundB cfgA sA [Event.mapNotify 11 none, Event.keyKillClient] = true
      ∧ (∀ a ∈ ringIds sA, a ∈ clientIds sA) := by
  refine ⟨by decide, by decide, ?_⟩
  exact ring_ids_exist_of_confined_events cfgA [Event.mapNotify 11 none, Event.keyKillClient]
    sA (sA, [XRequest.changeWindowAttributes 11, XRequest.flushConn,
      XRequest.sendClientMessage 11 wmProtocolsName wmDeleteWindowName, XRequest.flushConn,
      XRequest.flushConn])
    (by decide) (by decide) (by decide)

/-- C2 counterexample: a DestroyNotify for a client whose workspace is not shown
on the focused screen removes the id from the client vector but not from its
ring, so the ring id 10 dangles. -/
theorem destroy_offscreen_breaks_ring_subset :
    (dispatchEvents cfgA sA [Event.mapNotify 10 none, Event.keySwitchWorkspace 1,
      Event.destroyNotify 10]).toOption.map
      (fun p => (decide (10 ∈ ringIds p.1), decide (10 ∈ clientIds p.1))) = some (true, false) := by
  decide

theorem screen_eta (sc : Screen) : { sc with wix := sc.wix } = sc := rfl

theorem getD_set_one (l : List Screen) (f : Nat) (B : Screen) (hf : f < l.length) (j : Nat) :
    (l.set f B).getD j default = if j = f then B else l.getD j default := by
  by_cases hjf : j = f
  · subst hjf
    rw [if_pos rfl]
    exact list_getD_set_self l j B hf
  · rw [if_neg hjf]
    exact list_getD_set_other l f j B (fun h => hjf h.symm)

theorem getD_set_set (l : List Screen) (i f : Nat) (A B : Screen) (hi : i < l.length)
    (hf : f < l.length) (j : Nat) :
    ((l.set i A).set f B).getD j default =
      if j = f then B else if j = i then A else l.getD j default := by
  by_cases hjf : j = f
  · subst hjf
    rw [if_pos rfl]
    exact list_getD_set_self _ j B (by rw [List.length_set]; exact hf)
  · rw [if_neg hjf, list_getD_set_other _ f j B (fun h => hjf h.symm)]
    by_cases hji : j = i
    · subst hji
      rw [if_pos rfl]
      exact list_getD_set_self l j A hi
    · rw [if_neg hji]
      exact list_getD_set_other l i j A (fun h => hji h.symm)

theorem sinj_swap_set (l : List Screen) (i f k : Nat) (A B : Screen) (hi : i < l.length)
    (hf : f < l.length) (hne : i ≠ f) (hinj : SInj l)
    (hA : A.wix = (l.getD f default).wix) (hB : B.wix = k)
    (hik : (l.getD i default).wix = k) :
    SInj ((l.set i A).set f B) := by
  intro a ha b hb hab
  simp only [List.length_set] at ha hb
  rw [getD_set_set l i f A B hi hf a, getD_set_set l i f A B hi hf b]
  by_cases haf : a = f
  · subst haf
    rw [if_pos rfl]
    have hbf : ¬ b = a := fun h => hab h.symm
    rw [if_neg hbf]
    by_cases hbi : b = i
    · subst hbi
      rw [if_pos rfl, hB, hA, ← hik]
      exact hinj b hi a hf hne
    · rw [if_neg hbi, hB, ← hik]
      exact hinj i hi b hb (fun h => hbi h.symm)
  · rw [if_neg haf]
    by_cases hai : a = i
    · subst hai
      rw [if_pos rfl]
      have hbi : ¬ b = a := fun h => hab h.symm
      by_cases hbf : b = f
      · subst hbf
        rw [if_pos rfl, hA, hB, ← hik]
        exact hinj b hf a hi (fun h => hne (h.symm ▸ rfl))
      · rw [if_neg hbf, if_neg hbi, hA]
        exact hinj f hf b hb (fun h => hbf h.symm)
    · rw [if_neg hai]
      by_cases hbf : b = f
      · subst hbf
        rw [if_pos rfl, hB, ← hik]
        exact hinj a ha i hi hai
      · rw [if_neg hbf]
        by_cases hbi : b = i
        · subst hbi
          rw [if_pos rfl, hA]
          exact hinj a ha f hf haf
        · rw [if_neg hbi]
          exact hinj a ha b hb hab

theorem sinj_offscreen_set (l : List Screen) (f k : Nat) (B : Screen) (hf : f < l.length)
    (hB : B.wix = k) (hk : ∀ j, j < l.length → (l.getD j default).wix ≠ k)
    (hinj : SInj l) : SInj (l.set f B) := by
  intro a ha b hb hab
  simp only [List.length_set] at ha hb
  rw [getD_set_one l f B hf a, getD_set_one l f B hf b]
  by_cases haf : a = f
  · subst haf
    rw [if_pos rfl]
    have hbf : ¬ b = a := fun h => hab h.symm
    rw [if_neg hbf, hB]
    exact fun h => hk b hb h.symm
  · rw [if_neg haf]
    by_cases hbf : b = f
    · subst hbf
      rw [if_pos rfl, hB]
      exact hk a ha
    · rw [if_neg hbf]
      exact hinj a ha b hb hab

theorem list_ext_getD (l1 l2 : List Screen) (hlen : l1.length = l2.length)
    (h : ∀ j, j < l1.length → l1.getD j default = l2.getD j default) : l1 = l2 := by
  induction l1 generalizing l2 with
  | nil =>
    cases l2 with
    | nil => rfl
    | cons y t2 => simp at hlen
  | cons x t1 ih =>
    cases l2 with
    | nil => simp at hlen
    | cons y t2 =>
      have hx : x = y := h 0 (Nat.succ_pos _)
      rw [hx]
      have ht : t1 = t2 := by
        apply ih t2 (by simpa using hlen)
        intro j hj
        exact h (j + 1) (Nat.succ_lt_succ hj)
      rw [ht]

theorem sinj_swapScreens (l : List Screen) (i f k : Nat) (hi : i < l.length)
    (hf : f < l.length) (hif : i ≠ f) (hinj : SInj l)
    (hiwix : (l.getD i default).wix = k) : SInj (swapScreens l i f k) := by
  unfold swapScreens
  dsimp only
  exact sinj_swap_set l i f k _ _ hi hf hif hinj rfl rfl hiwix

theorem sinj_offScreens (l : List Screen) (f k : Nat) (hf : f < l.length)
    (hk : ∀ j, j < l.length → (l.getD j default).wix ≠ k) (hinj : SInj l) :
    SInj (offScreens l f k) := by
  unfold offScreens
  exact sinj_offscreen_set l f k _ hf rfl hk hinj

/-- C4: if no two screens show the same workspace index, the same holds after
switch_workspace in each of its three cases (no-op, swap with another screen,
pull an off-screen workspace). -/
theorem switch_workspace_preserves_screen_injectivity (cfg : Config) (s : WindowManager)
    (k : Nat) (hfs : s.focused_screen < s.screens.length) (hinj : SInj s.screens) :
    SInj ((switch_workspace cfg s k).1).screens := by
  unfold switch_workspace
  dsimp only
  cases hfind : findWix s.screens k with
  | some i =>
    dsimp only
    by_cases hif : i = s.focused_screen
    · rw [if_pos hif]
      exact hinj
    · rw [if_neg hif]
      obtain ⟨hilt, hiwix⟩ := findWix_some_lt s.screens k i hfind
      exact sinj_swapScreens s.screens i s.focused_screen k hilt hfs hif hinj hiwix
  | none =>
    dsimp only
    refine sinj_offScreens s.screens s.focused_screen k hfs ?_ hinj
    intro j hj
    exact (findWix_none_iff s.screens k).mp hfind j hj

theorem switch_workspace_preserves_screen_injectivity_witness :
    sC.focused_screen < sC.screens.length ∧ SInj sC.screens
      ∧ SInj ((switch_workspace cfgA sC 2).1).screens := by
  refine ⟨by decide, by decide, ?_⟩
  exact switch_workspace_preserves_screen_injectivity cfgA sC 2 (by decide) (by decide)


theorem swapScreens_length (l : List Screen) (i f x : Nat) :
    (swapScreens l i f x).length = l.length := by
  simp [swapScreens, List.length_set]

theorem offScreens_length (l : List Screen) (f x : Nat) :
    (offScreens l f x).length = l.length := by
  simp [offScreens, List.length_set]

theorem swapScreens_getD (l : List Screen) (i f x : Nat) (hi : i < l.length)
    (hf : f < l.length) (hif : i ≠ f) (j : Nat) :
    (swapScreens l i f x).getD j default =
      if j = f then { l.getD f default with wix := x }
      else if j = i then { l.getD i default with wix := (l.getD f default).wix }
      else l.getD j default := by
  unfold swapScreens
  dsimp only
  rw [list_getD_set_other l i f
    { l.getD i default with wix := (l.getD f default).wix } hif]
  exact getD_set_set l i f _ _ hi hf j

theorem offScreens_getD (l : List Screen) (f x : Nat) (hf : f < l.length) (j : Nat) :
    (offScreens l f x).getD j default =
      if j = f then { l.getD f default with wix := x } else l.getD j default := by
  unfold offScreens
  exact getD_set_one l f _ hf j

theorem swapScreens_swapScreens (l : List Screen) (i f k : Nat) (hi : i < l.length)
    (hf : f < l.length) (hif : i ≠ f) (hiwix : (l.getD i default).wix = k) :
    swapScreens (swapScreens l i f k) i f ((l.getD f default).wix) = l := by
  have hi2 : i < (swapScreens l i f k).length := by rw [swapScreens_length]; exact hi
  have hf2 : f < (swapScreens l i f k).length := by rw [swapScreens_length]; exact hf
  have hgi : (swapScreens l i f k).getD i default =
      { l.getD i default with wix := (l.getD f default).wix } := by
    rw [swapScreens_getD l i f k hi hf hif i, if_neg hif, if_pos rfl]
  have hgf : (swapScreens l i f k).getD f default = { l.getD f default with wix := k } := by
    rw [swapScreens_getD l i f k hi hf hif f, if_pos rfl]
  apply list_ext_getD
  · rw [swapScreens_length, swapScreens_length]
  · intro j hj
    have hj0 : j < l.length := by
      rw [swapScreens_length, swapScreens_length] at hj
      exact hj
    rw [swapScreens_getD (swapScreens l i f k) i f ((l.getD f default).wix) hi2 hf2 hif j]
    by_cases hjf : j = f
    · subst hjf
      rw [if_pos rfl, hgf]
    · rw [if_neg hjf]
      by_cases hji : j = i
      · subst hji
        rw [if_pos rfl, hgi, hgf]
        show ({ l.getD j default with wix := k } : Screen) = l.getD j default
        rw [← hiwix]
      · rw [if_neg hji, swapScreens_getD l i f k hi hf hif j, if_neg hjf, if_neg hji]

theorem offScreens_offScreens (l : List Screen) (f k : Nat) (hf : f < l.length) :
    offScreens (offScreens l f k) f ((l.getD f default).wix) = l := by
  have hf2 : f < (offScreens l f k).length := by rw [offScreens_length]; exact hf
  apply list_ext_getD
  · rw [offScreens_length, offScreens_length]
  · intro j hj
    rw [offScreens_getD (offScreens l f k) f ((l.getD f default).wix) hf2 j]
    by_cases hjf : j = f
    · subst hjf
      rw [if_pos rfl, offScreens_getD l j k hf j, if_pos rfl]
    · rw [if_neg hjf, offScreens_getD l f k hf j, if_neg hjf]

/-- C3: starting from an injective screen-to-workspace binding, switching to any
valid workspace index k and then back to the index previously shown on the
focused screen restores every screen's workspace binding exactly. -/
theorem switch_workspace_swap_symmetry (cfg : Config) (s : WindowManager) (k : Nat)
    (hfs : s.focused_screen < s.screens.length) (hinj : SInj s.screens)
    (_hk : k < s.workspaces.length)
    (_hw : (s.screens.getD s.focused_screen default).wix < s.workspaces.length) :
    ((switch_workspace cfg (switch_workspace cfg s k).1
        (s.screens.getD s.focused_screen default).wix).1).screens = s.screens := by
  cases hfind : findWix s.screens k with
  | some i =>
    obtain ⟨hilt, hiwix⟩ := findWix_some_lt s.screens k i hfind
    by_cases hif : i = s.focused_screen
    · have h1 : (switch_workspace cfg s k).1 = s := by
        unfold switch_workspace
        rw [hfind]
        dsimp only
        rw [if_pos hif]
      have hwk : (s.screens.getD s.focused_screen default).wix = k := by
        rw [← hif]
        exact hiwix
      rw [h1, hwk, h1]
    · have h1 : (switch_workspace cfg s k).1 =
          { s with screens := swapScreens s.screens i s.focused_screen k } := by
        unfold switch_workspace
        rw [hfind]
        dsimp only
        rw [if_neg hif]
      rw [h1]
      have hinj2 : SInj (swapScreens s.screens i s.focused_screen k) :=
        sinj_swapScreens s.screens i s.focused_screen k hilt hfs hif hinj hiwix
      have hi2 : i < (swapScreens s.screens i s.focused_screen k).length := by
        rw [swapScreens_length]
        exact hilt
      have hwi2 : ((swapScreens s.screens i s.focused_screen k).getD i default).wix =
          (s.screens.getD s.focused_screen default).wix := by
        rw [swapScreens_getD s.screens i s.focused_screen k hilt hfs hif i,
          if_neg hif, if_pos rfl]
      have hfind2 : findWix (swapScreens s.screens i s.focused_screen k)
          (s.screens.getD s.focused_screen default).wix = some i :=
        findWix_unique _ _ i hinj2 hi2 hwi2
      have h2 : (switch_workspace cfg { s with screens := swapScreens s.screens i s.focused_screen k }
          (s.screens.getD s.focused_screen default).wix).1 =
          { s with screens := (swapScreens (swapScreens s.screens i s.focused_screen k) i
            s.focused_screen ((s.screens.getD s.focused_screen default).wix)) } := by
        unfold switch_workspace
        dsimp only
        rw [hfind2]
        dsimp only
        rw [if_neg hif]
      rw [h2]
      dsimp only
      exact swapScreens_swapScreens s.screens i s.focused_screen k hilt hfs hif hiwix
  | none =>
    have hwneqk : (s.screens.getD s.focused_screen default).wix ≠ k := by
      have := (findWix_none_iff s.screens k).mp hfind s.focused_screen hfs
      intro h
      exact this h
    have h1 : (switch_workspace cfg s k).1 =
        { s with screens := offScreens s.screens s.focused_screen k } := by
      unfold switch_workspace
      rw [hfind]
    rw [h1]
    have hfind2 : findWix (offScreens s.screens s.focused_screen k)
        (s.screens.getD s.focused_screen default).wix = none := by
      apply (findWix_none_iff _ _).mpr
      intro j hj
      have hj0 : j < s.screens.length := by
        rw [offScreens_length] at hj
        exact hj
      rw [offScreens_getD s.screens s.focused_screen k hfs j]
      by_cases hjf : j = s.focused_screen
      · subst hjf
        rw [if_pos rfl]
        intro h
        exact hwneqk h.symm
      · rw [if_neg hjf]
        exact hinj j hj0 s.focused_screen hfs hjf
    have h2 : (switch_workspace cfg { s with screens := offScreens s.screens s.focused_screen k }
        (s.screens.getD s.focused_screen default).wix).1 =
        { s with screens := (offScreens (offScreens s.screens s.focused_screen k) s.focused_screen
          ((s.screens.getD s.focused_screen default).wix)) } := by
      unfold switch_workspace
      dsimp only
      rw [hfind2]
    rw [h2]
    dsimp only
    exact offScreens_offScreens s.screens s.focused_screen k hfs

theorem switch_workspace_swap_symmetry_witness :
    sC.focused_screen < sC.screens.length ∧ SInj sC.screens ∧ 2 < sC.workspaces.length
      ∧ (sC.screens.getD sC.focused_screen default).wix < sC.workspaces.length
      ∧ ((switch_workspace cfgA (switch_workspace cfgA sC 2).1
          (sC.screens.getD sC.focused_screen default).wix).1).screens = sC.screens := by
  refine ⟨by decide, by decide, by decide, by decide, ?_⟩
  exact switch_workspace_swap_symmetry cfgA sC 2 (by decide) (by decide) (by decide) (by decide)

theorem u32add_eq (a b : Nat) (h : a + b < u32Mod) : u32add a b = a + b := by
  unfold u32add u32wrap
  exact Nat.mod_eq_of_lt h

theorem u32sub_eq (a b : Nat) (hba : b ≤ a) (ha : a < u32Mod) : u32sub a b = a - b := by
  unfold u32sub u32wrap
  have hb : b < u32Mod := Nat.lt_of_le_of_lt hba ha
  rw [Nat.mod_eq_of_lt ha, Nat.mod_eq_of_lt hb]
  have hsplit : a + u32Mod - b = (a - b) + u32Mod := by omega
  rw [hsplit, Nat.add_mod_right]
  exact Nat.mod_eq_of_lt (Nat.lt_of_le_of_lt (Nat.sub_le a b) ha)

theorem map_congr_mem {α β : Type} (l : List α) (f g : α → β) (h : ∀ a ∈ l, f a = g a) :
    l.map f = l.map g := by
  induction l with
  | nil => rfl
  | cons x t ih =>
    simp only [List.map_cons]
    rw [h x (List.mem_cons_self x t), ih (fun a ha => h a (List.mem_cons_of_mem x ha))]

/-- C5: for a valid screen whose arranged regions are large enough for the
border-and-gap padding and small enough for u32, apply_layout issues exactly one
configure request per (id, region) pair of arrange, in arrange order, at
position (x + GAP_PX, y + GAP_PX), size (w - 2*(BORDER_PX + GAP_PX),
h - 2*(BORDER_PX + GAP_PX)) and border BORDER_PX. -/
theorem apply_layout_configure_requests (cfg : Config) (s : WindowManager) (screen : Nat)
    (_hs : screen < s.screens.length)
    (hb : ∀ p ∈ (workspace_for_screen s screen).arrange (s.screens.getD screen default).region,
      2 * (cfg.BORDER_PX + cfg.GAP_PX) ≤ p.2.w ∧ 2 * (cfg.BORDER_PX + cfg.GAP_PX) ≤ p.2.h ∧
      p.2.x + cfg.GAP_PX < u32Mod ∧ p.2.y + cfg.GAP_PX < u32Mod ∧
      p.2.w < u32Mod ∧ p.2.h < u32Mod) :
    apply_layout cfg s screen =
      ((workspace_for_screen s screen).arrange (s.screens.getD screen default).region).map
        (fun p => XRequest.configureWindow p.1 (p.2.x + cfg.GAP_PX) (p.2.y + cfg.GAP_PX)
          (p.2.w - 2 * (cfg.BORDER_PX + cfg.GAP_PX)) (p.2.h - 2 * (cfg.BORDER_PX + cfg.GAP_PX))
          cfg.BORDER_PX) := by
  unfold apply_layout
  dsimp only
  apply map_congr_mem
  intro p hp
  obtain ⟨h1, h2, h3, h4, h5, h6⟩ := hb p hp
  unfold Region.values
  dsimp only
  rw [u32add_eq _ _ h3, u32add_eq _ _ h4, u32sub_eq _ _ h1 h5, u32sub_eq _ _ h2 h6]

theorem apply_layout_configure_requests_witness :
    0 < sD.screens.length
      ∧ (∀ p ∈ (workspace_for_screen sD 0).arrange (sD.screens.getD 0 default).region,
        2 * (cfgA.BORDER_PX + cfgA.GAP_PX) ≤ p.2.w ∧ 2 * (cfgA.BORDER_PX + cfgA.GAP_PX) ≤ p.2.h ∧
        p.2.x + cfgA.GAP_PX < u32Mod ∧ p.2.y + cfgA.GAP_PX < u32Mod ∧
        p.2.w < u32Mod ∧ p.2.h < u32Mod)
      ∧ apply_layout cfgA sD 0 =
        ((workspace_for_screen sD 0).arrange (sD.screens.getD 0 default).region).map
          (fun p => XRequest.configureWindow p.1 (p.2.x + cfgA.GAP_PX) (p.2.y + cfgA.GAP_PX)
            (p.2.w - 2 * (cfgA.BORDER_PX + cfgA.GAP_PX)) (p.2.h - 2 * (cfgA.BORDER_PX + cfgA.GAP_PX))
            cfgA.BORDER_PX) := by
  refine ⟨by decide, by decide, ?_⟩
  exact apply_layout_configure_requests cfgA sD 0 (by decide) (by decide)

/-- C6: apply_layout takes the manager by shared borrow, so it leaves the state
untouched, and running it twice in a row from the same state issues two
identical request sequences. -/
theorem apply_layout_idempotent_and_pure (cfg : Config) (s : WindowManager) (screen : Nat) :
    (apply_layout_st cfg s screen).1 = s
      ∧ (apply_layout_st cfg (apply_layout_st cfg s screen).1 screen).2 =
        (apply_layout_st cfg s screen).2 :=
  ⟨rfl, rfl⟩

/-- C7 (amended): with no focused client kill_client is a no-op; otherwise it
sends WM_DELETE_WINDOW via WM_PROTOCOLS to the focused client, flushes, removes
the client locally, cycles client focus forward once (next_client) and then
reconciles the focused screen. -/
theorem kill_client_removes_and_cycles (cfg : Config) (s : WindowManager) :
    (focused_client s = Except.ok none → kill_client cfg s = Except.ok (s, []))
    ∧ (∀ c, focused_client s = Except.ok (some c) →
      kill_client cfg s = Except.ok ((next_client (s.remove_client c.id)).1,
        [XRequest.sendClientMessage c.id wmProtocolsName wmDeleteWindowName, XRequest.flushConn]
          ++ (next_client (s.remove_client c.id)).2
          ++ apply_layout cfg (next_client (s.remove_client c.id)).1
            ((next_client (s.remove_client c.id)).1).focused_screen)
      ∧ clientIds (next_client (s.remove_client c.id)).1 =
          (clientIds s).filter (fun a => a != c.id)) := by
  constructor
  · intro h
    unfold kill_client
    rw [h]
  · intro c h
    constructor
    · unfold kill_client
      rw [h]
      rfl
    · rw [next_client, cycle_client_clientIds, remove_client_clientIds]

theorem kill_client_removes_and_cycles_witness :
    focused_client sB = Except.ok (some (Client.new 10 ("a") false))
      ∧ (kill_client cfgA sB = Except.ok ((next_client (sB.remove_client 10)).1,
        [XRequest.sendClientMessage 10 wmProtocolsName wmDeleteWindowName, XRequest.flushConn]
          ++ (next_client (sB.remove_client 10)).2
          ++ apply_layout cfgA (next_client (sB.remove_client 10)).1
            ((next_client (sB.remove_client 10)).1).focused_screen)
        ∧ clientIds (next_client (sB.remove_client 10)).1 =
            (clientIds sB).filter (fun a => a != 10)) := by
  refine ⟨by decide, ?_⟩
  exact (kill_client_removes_and_cycles cfgA sB).2 (Client.new 10 ("a") false) (by decide)

/-- C7 counterexample: at a state whose focused workspace ring is [10, 11, 12]
with 10 focused, kill_client does not merely send, flush, remove and reconcile:
next_client also moves the ring focus and emits border and input-focus
requests, so the result differs from the claimed one. -/
theorem kill_client_not_just_remove_counterexample :
    kill_client cfgA sB ≠ Except.ok (sB.remove_client 10,
      [XRequest.sendClientMessage 10 wmProtocolsName wmDeleteWindowName, XRequest.flushConn]
        ++ apply_layout cfgA (sB.remove_client 10) sB.focused_screen) := by
  decide

/-- C8: client_to_workspace is a stub in the source: at a state with a focused
client it changes nothing and sends nothing, against the specified move. -/
theorem client_to_workspace_stub_noop :
    client_to_workspace cfgA sB 1 = (sB, [])
      ∧ (workspace_for_screen sB sB.focused_screen).focused_client = some 10 := by
  decide

theorem find?_some_of_mem {α : Type} (l : List α) (p : α → Bool) (a : α)
    (ha : a ∈ l) (hp : p a = true) : ∃ b, l.find? p = some b := by
  induction l with
  | nil => cases ha
  | cons x t ih =>
    by_cases px : p x = true
    · exact ⟨x, by rw [List.find?_cons_of_pos _ px]⟩
    · rcases List.mem_cons.mp ha with hax | hat
      · subst hax
        exact absurd hp px
      · obtain ⟨b, hb⟩ := ih hat
        exact ⟨b, by rw [List.find?_cons_of_neg _ (by simpa using px), hb]⟩

/-- C9: if the focused workspace reports a focused id that is missing from the
client vector, focused_client is the unwrap panic rather than None, and
kill_client panics with it; when every ring id is backed by a client record,
kill_client runs to completion. -/
theorem focused_client_panics_on_dangling_id (cfg : Config) (s : WindowManager) :
    (∀ id, (workspace_for_screen s s.focused_screen).focused_client = some id →
      s.clients.find? (fun c => c.id == id) = none →
      focused_client s = Except.error () ∧ kill_client cfg s = Except.error ())
    ∧ ((∀ id ∈ (workspace_for_screen s s.focused_screen).clients,
        ∃ c, c ∈ s.clients ∧ c.id = id) →
      ∃ r, kill_client cfg s = Except.ok r) := by
  constructor
  · intro id hfoc hfind
    have herr : focused_client s = Except.error () := by
      unfold focused_client
      rw [hfoc]
      dsimp only
      rw [hfind]
    refine ⟨herr, ?_⟩
    unfold kill_client
    rw [herr]
  · intro hall
    cases hfc : (workspace_for_screen s s.focused_screen).focused_client with
    | none =>
      have hok : focused_client s = Except.ok none := by
        unfold focused_client
        rw [hfc]
      exact ⟨(s, []), by unfold kill_client; rw [hok]⟩
    | some id =>
      have hidmem : id ∈ (workspace_for_screen s s.focused_screen).clients := by
        obtain ⟨i, hi⟩ := Option.bind_eq_some.mp hfc
        exact List.getElem?_mem hi.2
      obtain ⟨c, hcmem, hcid⟩ := hall id hidmem
      obtain ⟨c2, hc2⟩ := find?_some_of_mem s.clients (fun cl => cl.id == id) c hcmem
        (by simp [hcid])
      have hok : focused_client s = Except.ok (some c2) := by
        unfold focused_client
        rw [hfc]
        dsimp only
        rw [hc2]
      exact ⟨_, by unfold kill_client; rw [hok]⟩

theorem focused_client_panics_on_dangling_id_witness :
    ((workspace_for_screen sE sE.focused_screen).focused_client = some 5
      ∧ sE.clients.find? (fun c => c.id == 5) = none
      ∧ focused_client sE = Except.error () ∧ kill_client cfgA sE = Except.error ())
    ∧ ((∀ id ∈ (workspace_for_screen sB sB.focused_screen).clients,
        ∃ c, c ∈ sB.clients ∧ c.id = id)
      ∧ ∃ r, kill_client cfgA sB = Except.ok r) := by
  constructor
  · refine ⟨by decide, by decide, ?_⟩
    exact (focused_client_panics_on_dangling_id cfgA sE).1 5 (by decide) (by decide)
  · refine ⟨by decide, ?_⟩
    exact (focused_client_panics_on_dangling_id cfgA sB).2 (by decide)

/-- C10: draw before any successful current_extent call is the unwrap panic on
the empty extent cache; a successful current_extent stores its result, and
every later current_extent call returns the cached value with the same widget
and no further context query. -/
theorem static_text_draw_panics_and_extent_caches (st : StaticText) :
    (st.extent = none → ∀ ctx w h, st.draw ctx w h = Except.error DrawFailure.panicked)
    ∧ (∀ ctx h e st2 fx, st.current_extent ctx h = Except.ok (e, st2, fx) →
      st2.extent = some e
        ∧ ∀ ctx2 h2, st2.current_extent ctx2 h2 = Except.ok (e, st2, [])) := by
  constructor
  · intro hnone ctx w h
    unfold StaticText.draw
    rw [hnone]
  · intro ctx h e st2 fx hok
    unfold StaticText.current_extent at hok
    cases hext : st.extent with
    | some ex =>
      rw [hext] at hok
      dsimp only at hok
      injection hok with h1
      injection h1 with h2 h3
      injection h3 with h4 h5
      subst h2
      subst h4
      refine ⟨hext, ?_⟩
      intro ctx2 h2
      unfold StaticText.current_extent
      rw [hext]
    | none =>
      rw [hext] at hok
      cases htx : ctx.text_extent_fn st.txt st.font with
      | error u =>
        rw [htx] at hok
        cases hok
      | ok wh =>
        rw [htx] at hok
        dsimp only at hok
        injection hok with h1
        injection h1 with h2 h3
        injection h3 with h4 h5
        subst h2
        subst h4
        constructor
        · rfl
        · intro ctx2 h2
          unfold StaticText.current_extent
          rfl

theorem static_text_draw_panics_and_extent_caches_witness :
    stA.extent = none
      ∧ stA.draw ctxA 7 9 = Except.error DrawFailure.panicked
      ∧ stA.current_extent ctxA 9 = Except.ok ((10, 5),
        (⟨"hello", "mono", 12, (3 : Nat), none, (1, 2), false, some (10, 5)⟩ : StaticText),
        [CtxEffect.queryTextExtent ("hello") ("mono")])
      ∧ ((⟨"hello", "mono", 12, (3 : Nat), none, (1, 2), false, some (10, 5)⟩ : StaticText).extent
          = some (10, 5)
        ∧ (⟨"hello", "mono", 12, (3 : Nat), none, (1, 2), false, some (10, 5)⟩ : StaticText).current_extent
            ctxA 0 = Except.ok ((10, 5),
          (⟨"hello", "mono", 12, (3 : Nat), none, (1, 2), false, some (10, 5)⟩ : StaticText), [])) := by
  refine ⟨rfl, ?_, rfl, ?_⟩
  · exact (static_text_draw_panics_and_extent_caches stA).1 rfl ctxA 7 9
  · have H := (static_text_draw_panics_and_extent_caches stA).2 ctxA 9 (10, 5)
      (⟨"hello", "mono", 12, (3 : Nat), none, (1, 2), false, some (10, 5)⟩ : StaticText)
      [CtxEffect.queryTextExtent ("hello") ("mono")] rfl
    exact ⟨H.1, H.2 ctxA 0⟩
